import Mathlib

/-!
Verification of the API performance-testing harness
(backend/api_performance: test_runner.py and compare_runs.py).

The Python code is shallowly embedded: dataclasses become structures,
floating-point times and sizes become exact rationals, Python dicts keyed by
endpoint strings become association lists, and the effectful HTTP layer is
abstracted as an oracle parameter (a function from the index of the HTTP call
in program order to the outcome it produced).  All definitions are executable.
-/

namespace ApiPerf

/-- Embeds the dataclass RequestConfig of test_runner.py: configuration for a
single API request.  Header/param/body dictionaries are association lists with
string values. -/
structure RequestConfig where
  method : String
  endpoint : String
  headers : List (String × String) := []
  params : List (String × String) := []
  data : Option (List (String × String)) := none
  json_data : Option (List (String × String)) := none
  auth : Option (String × String) := none
  timeout : ℚ := 30
  allow_redirects : Bool := true
  verify : Bool := true
deriving DecidableEq

/-- Embeds the dataclass RequestResult of test_runner.py: the outcome of a
single request execution.  elapsed_time (Python float seconds) is a rational;
response_data (parsed JSON or truncated text) is modelled as the captured
text. -/
structure RequestResult where
  status_code : Int
  elapsed_time : ℚ
  response_size : Nat
  timestamp : String
  success : Bool
  error : Option String := none
  response_headers : List (String × String) := []
  response_data : Option String := none
deriving DecidableEq

/-- Embeds the dataclass TestConfig of test_runner.py.  The optional
setup_function / teardown_function callables are omitted: they are opaque
callbacks that no claim refers to. -/
structure TestConfig where
  name : String
  base_url : String
  requests : List RequestConfig
  iterations : Nat := 1
  concurrent : Bool := false
  max_workers : Nat := 5
  warm_up_iterations : Nat := 0
  include_response_data : Bool := false
  auth_token : Option String := none
deriving DecidableEq

/-- Embeds the per-endpoint summary dictionary built by
TestResult.calculate_summary.  The std_dev entry (Python statistics.stdev, a
floating-point square root) is omitted from the model: exact square roots are
not computable over the rationals and no claim refers to it. -/
structure EndpointSummary where
  min_time : ℚ
  max_time : ℚ
  mean_time : ℚ
  median_time : ℚ
  p95_time : Option ℚ
  p99_time : Option ℚ
  total_requests : Nat
  successful_requests : Nat
  failed_requests : Nat
  success_rate : ℚ
  avg_response_size : ℚ
deriving DecidableEq

/-- Python dict lookup on an association list keyed by endpoint strings:
returns the value of the first entry with the given key. -/
def lookupKey {α : Type} (e : String) : List (String × α) → Option α
  | [] => none
  | p :: ps => if p.1 = e then some p.2 else lookupKey e ps

/-- Embeds the comprehension on line 78 of test_runner.py:
elapsed times of the successful requests, in list order. -/
def successfulTimes (results : List RequestResult) : List ℚ :=
  (results.filter (fun r => r.success)).map (fun r => r.elapsed_time)

/-- Embeds the Python builtin sorted on a list of floats: ascending stable
sort. -/
def sortAsc (l : List ℚ) : List ℚ :=
  l.insertionSort (fun a b => a ≤ b)

/-- Embeds the Python builtin min over a nonempty list (the empty case, on
which Python raises, returns 0 and is never reached by callers). -/
def listMin : List ℚ → ℚ
  | [] => 0
  | x :: xs => xs.foldl min x

/-- Embeds the Python builtin max over a nonempty list. -/
def listMax : List ℚ → ℚ
  | [] => 0
  | x :: xs => xs.foldl max x

/-- Embeds statistics.mean: sum divided by length. -/
def meanQ (l : List ℚ) : ℚ :=
  l.sum / (l.length : ℚ)

/-- Embeds statistics.median: middle element of the ascending sort for odd
length, average of the two middle elements for even length. -/
def medianQ (l : List ℚ) : ℚ :=
  let s := sortAsc l
  let n := l.length
  if n % 2 = 1 then s.getD (n / 2) 0
  else (s.getD (n / 2 - 1) 0 + s.getD (n / 2) 0) / 2

/-- Embeds the body of the loop of TestResult.calculate_summary
(test_runner.py lines 76-97) for one endpoint: none when the endpoint has no
successful outcome (the continue on line 80), otherwise the statistics
record.  Python indexes the sorted list at int(n * 0.95) (resp. int(n * 0.99));
for every feasible list length this float expression equals the integer floor
n * 95 / 100 (resp. n * 99 / 100), which is how it is embedded. -/
def endpointSummary (results : List RequestResult) : Option EndpointSummary :=
  let elapsed_times := successfulTimes results
  if elapsed_times.isEmpty then none
  else some
    { min_time := listMin elapsed_times
      max_time := listMax elapsed_times
      mean_time := meanQ elapsed_times
      median_time := medianQ elapsed_times
      p95_time :=
        if 20 ≤ elapsed_times.length then
          some ((sortAsc elapsed_times).getD (elapsed_times.length * 95 / 100) 0)
        else none
      p99_time :=
        if 100 ≤ elapsed_times.length then
          some ((sortAsc elapsed_times).getD (elapsed_times.length * 99 / 100) 0)
        else none
      total_requests := results.length
      successful_requests := elapsed_times.length
      failed_requests := results.length - elapsed_times.length
      success_rate :=
        if results.isEmpty then 0
        else (elapsed_times.length : ℚ) / (results.length : ℚ)
      avg_response_size :=
        if elapsed_times.isEmpty then 0
        else meanQ ((results.filter (fun r => r.success)).map
          (fun r => (r.response_size : ℚ))) }

/-- Embeds TestResult.calculate_summary: iterate over the request_results
mapping in order, skipping endpoints with no successful outcome. -/
def calculate_summary (request_results : List (String × List RequestResult)) :
    List (String × EndpointSummary) :=
  request_results.filterMap
    (fun p => (endpointSummary p.2).map (fun s => (p.1, s)))

/-- Embeds the dataclass TestResult of test_runner.py (the data fields; the
request_results and summary dictionaries are association lists in endpoint
insertion order). -/
structure TestResult where
  test_name : String
  start_time : String
  end_time : String
  total_duration : ℚ
  request_results : List (String × List RequestResult)
  iterations : Nat
  concurrent : Bool
  summary : List (String × EndpointSummary)
deriving DecidableEq

/-- Result of the one HTTP call attempted inside _make_request: either a
response (with its body text, content size, headers and the wall-clock seconds
the call took) or a raised exception (with its message and the seconds elapsed
up to the failure point).  This abstracts the requests library call on
test_runner.py lines 214-225. -/
inductive HttpCallOutcome where
  | ok (status_code : Int) (text : String) (content_size : Nat)
      (headers : List (String × String)) (elapsed : ℚ)
  | exn (msg : String) (elapsed : ℚ)
deriving DecidableEq

/-- Embeds APIPerformanceTester._make_request (test_runner.py lines 180-286)
given the outcome of the underlying HTTP call.  The success branch classifies
2xx as success and truncates the body to 500 characters as the error text of a
non-2xx response; the exception branch (lines 271-286) absorbs the exception
into a RequestResult with sentinel status -1.  JSON parsing of the captured
body is modelled as capturing the raw text truncated to 1000 characters. -/
def make_request (include_response_data : Bool) (timestamp : String)
    (call : HttpCallOutcome) : RequestResult :=
  match call with
  | HttpCallOutcome.ok status text size headers elapsed =>
    let success := decide (200 ≤ status ∧ status < 300)
    { status_code := status
      elapsed_time := elapsed
      response_size := size
      timestamp := timestamp
      success := success
      error := if success then none else some (text.take 500)
      response_headers := headers
      response_data :=
        if include_response_data then
          (if text = "" then none else some (text.take 1000))
        else none }
  | HttpCallOutcome.exn msg elapsed =>
    { status_code := -1
      elapsed_time := elapsed
      response_size := 0
      timestamp := timestamp
      success := false
      error := some msg
      response_headers := []
      response_data := none }

/-- Key list of a Python dict comprehension with possibly repeated keys:
each key once, in first-occurrence order. -/
def dedupFirst : List String → List String
  | [] => []
  | x :: xs => x :: (dedupFirst xs).filter (fun y => y ≠ x)

/-- Embeds the dict comprehension on line 290/311 of test_runner.py:
one empty outcome list per distinct endpoint. -/
def initResults (reqs : List RequestConfig) :
    List (String × List RequestResult) :=
  (dedupFirst (reqs.map (fun r => r.endpoint))).map (fun e => (e, []))

/-- Embeds results[endpoint].append(result): append to the (unique) entry of
the given key. -/
def appendAt (m : List (String × List RequestResult)) (k : String)
    (v : RequestResult) : List (String × List RequestResult) :=
  m.map (fun p => if p.1 = k then (p.1, p.2 ++ [v]) else p)

/-- Embeds one measured iteration of the sequential loop (test_runner.py
lines 303-305): execute every RequestConfig once in spec order, appending each
outcome to its endpoint's list.  The oracle exec gives the outcome of the n-th
HTTP call made by the tester in program order; start is the index of the next
call. -/
def seqRound (exec : Nat → RequestResult) :
    Nat → List RequestConfig → List (String × List RequestResult) →
    List (String × List RequestResult)
  | _, [], m => m
  | start, r :: rs, m =>
    seqRound exec (start + 1) rs (appendAt m r.endpoint (exec start))

/-- Embeds the iteration loop of _run_sequential (test_runner.py lines
300-305): the given number of measured rounds, threading the call counter. -/
def seqIters (exec : Nat → RequestResult) (reqs : List RequestConfig) :
    Nat → Nat → List (String × List RequestResult) →
    List (String × List RequestResult)
  | _, 0, m => m
  | start, k + 1, m =>
    seqIters exec reqs (start + reqs.length) k (seqRound exec start reqs m)

/-- Embeds APIPerformanceTester._run_sequential (test_runner.py lines
288-307).  The warm-up phase performs warm_up_iterations rounds over all specs
and discards every outcome; in the oracle model it consumes the first
warm_up_iterations * len(requests) call indices without recording anything. -/
def runSequential (cfg : TestConfig) (exec : Nat → RequestResult) :
    List (String × List RequestResult) :=
  seqIters exec cfg.requests (cfg.warm_up_iterations * cfg.requests.length)
    cfg.iterations (initResults cfg.requests)

/-- Embeds APIPerformanceTester._run_concurrent (test_runner.py lines
309-338): after the same sequential warm-up, all iterations * len(requests)
tasks are submitted to a worker pool and appended in completion order.  The
nondeterministic completion order is a parameter: a list of task indices (in
submission order the n-th task executes call index warm + n). -/
def runConcurrent (cfg : TestConfig) (exec : Nat → RequestResult)
    (completionOrder : List Nat) : List (String × List RequestResult) :=
  let warm := cfg.warm_up_iterations * cfg.requests.length
  let tasks := (List.range cfg.iterations).flatMap (fun _ => cfg.requests)
  completionOrder.foldl
    (fun m n =>
      match tasks.get? n with
      | some r => appendAt m r.endpoint (exec (warm + n))
      | none => m)
    (initResults cfg.requests)

/-- Embeds APIPerformanceTester.run (test_runner.py lines 340-403): dispatch
to the sequential or concurrent scheduler, build the TestResult, and compute
its summary.  Wall-clock timestamps and the total duration are oracle
inputs. -/
def run (cfg : TestConfig) (exec : Nat → RequestResult)
    (completionOrder : List Nat) (start_time end_time : String)
    (total_duration : ℚ) : TestResult :=
  let request_results :=
    if cfg.concurrent then runConcurrent cfg exec completionOrder
    else runSequential cfg exec
  { test_name := cfg.name
    start_time := start_time
    end_time := end_time
    total_duration := total_duration
    request_results := request_results
    iterations := cfg.iterations
    concurrent := cfg.concurrent
    summary := calculate_summary request_results }

/-- Embeds the endpoint-selection guard of the test_api management command
(management/commands/test_api.py lines 239-241): an empty endpoint selection
is fatal, logged and aborted with sys.exit(1) before any TestConfig is built
or any request is made. -/
def cliEndpointGuard (test_endpoints : List RequestConfig) :
    Except String (List RequestConfig) :=
  if test_endpoints.isEmpty then
    Except.error "No valid endpoints selected for testing"
  else Except.ok test_endpoints

/-- Summary statistics of one endpoint as read back from a serialized run by
compare_runs.py: the numeric entries the comparison table reads. -/
structure SummaryStats where
  mean_time : ℚ
  median_time : ℚ
  min_time : ℚ
  max_time : ℚ
  success_rate : ℚ
  total_requests : ℚ
deriving DecidableEq

/-- Embeds the dict access stats[metric_key] of
generate_detailed_stats_table for the six compared metric keys. -/
def metricValue (metric_key : String) (s : SummaryStats) : ℚ :=
  if metric_key = "mean_time" then s.mean_time
  else if metric_key = "median_time" then s.median_time
  else if metric_key = "min_time" then s.min_time
  else if metric_key = "max_time" then s.max_time
  else if metric_key = "success_rate" then s.success_rate
  else if metric_key = "total_requests" then s.total_requests
  else 0

/-- Embeds the metrics list of generate_detailed_stats_table
(compare_runs.py lines 279-286): display name, dict key, unit multiplier. -/
def metricsList : List (String × String × ℚ) :=
  [("Mean Time (ms)", "mean_time", 1000),
   ("Median Time (ms)", "median_time", 1000),
   ("Min Time (ms)", "min_time", 1000),
   ("Max Time (ms)", "max_time", 1000),
   ("Success Rate (%)", "success_rate", 100),
   ("Requests", "total_requests", 1)]

/-- One row of the comparison table. -/
structure StatsRow where
  metric_key : String
  val1 : ℚ
  val2 : ℚ
  diff : ℚ
  pct_change : ℚ
  color : String
deriving DecidableEq

/-- Embeds the color choice of compare_runs.py lines 300-309: for
success_rate higher is better, total_requests is uncolored, for the time
metrics lower is better. -/
def rowColor (metric_key : String) (diff : ℚ) : String :=
  if metric_key = "success_rate" then (if 0 ≤ diff then "green" else "red")
  else if metric_key = "total_requests" then "black"
  else (if diff ≤ 0 then "green" else "red")

/-- Embeds one metric row of generate_detailed_stats_table (compare_runs.py
lines 289-309): scale both values by the unit multiplier, take the raw diff
val2 - val1, and the percentage change diff / val1 * 100 guarded by
val1 != 0. -/
def makeRow (metric_key : String) (multiplier v1raw v2raw : ℚ) : StatsRow :=
  let val1 := v1raw * multiplier
  let val2 := v2raw * multiplier
  let diff := val2 - val1
  { metric_key := metric_key
    val1 := val1
    val2 := val2
    diff := diff
    pct_change := if val1 ≠ 0 then diff / val1 * 100 else 0
    color := rowColor metric_key diff }

/-- Embeds the common-endpoint computation of compare_runs.py lines 253 and
170: the endpoints present in both summaries.  Python materializes the
intersection of two key sets in unspecified order; it is modelled in run-1 key
order. -/
def commonEndpoints (summary1 summary2 : List (String × SummaryStats)) :
    List String :=
  (summary1.map Prod.fst).filter (fun e => (lookupKey e summary2).isSome)

/-- Embeds the table body built by generate_detailed_stats_table
(compare_runs.py lines 274-329): for every common endpoint, one row per
compared metric.  The membership test metric_key in stats holds for every
compared key because the stats record carries all six entries. -/
def detailedStatsTable (summary1 summary2 : List (String × SummaryStats)) :
    List (String × List StatsRow) :=
  (commonEndpoints summary1 summary2).filterMap
    (fun e =>
      match lookupKey e summary1, lookupKey e summary2 with
      | some st1, some st2 =>
        some (e, metricsList.map
          (fun m => makeRow m.2.1 m.2.2 (metricValue m.2.1 st1)
            (metricValue m.2.1 st2)))
      | _, _ => none)

/-- Embeds the improvement computation of plot_response_time_improvement
(compare_runs.py lines 177-193) for one common endpoint: both mean times
scaled to milliseconds, the percentage improvement
(mean1 - mean2) / mean1 * 100 guarded by mean1 > 0, and the absolute
difference mean1 - mean2. -/
def improvementFor (mean_time1_s mean_time2_s : ℚ) : ℚ × ℚ :=
  let mean_time1 := mean_time1_s * 1000
  let mean_time2 := mean_time2_s * 1000
  (if 0 < mean_time1 then (mean_time1 - mean_time2) / mean_time1 * 100 else 0,
   mean_time1 - mean_time2)

/-! ### Basic facts about the aggregator -/

theorem successfulTimes_eq_nil_iff (rs : List RequestResult) :
    successfulTimes rs = [] ↔ ∀ r ∈ rs, r.success = false := by
  simp [successfulTimes, List.map_eq_nil_iff, List.filter_eq_nil_iff]

theorem successfulTimes_length_le (rs : List RequestResult) :
    (successfulTimes rs).length ≤ rs.length := by
  simpa [successfulTimes] using List.length_filter_le (fun r => r.success) rs

theorem endpointSummary_eq_none_iff (rs : List RequestResult) :
    endpointSummary rs = none ↔ ∀ r ∈ rs, r.success = false := by
  by_cases h : successfulTimes rs = []
  · simp [endpointSummary, List.isEmpty_iff, h]
    exact (successfulTimes_eq_nil_iff rs).mp h
  · simp [endpointSummary, List.isEmpty_iff, h]
    by_contra hno
    push_neg at hno
    exact h ((successfulTimes_eq_nil_iff rs).mpr fun r hr => by
      simpa using hno r hr)

theorem endpointSummary_fields (rs : List RequestResult) (s : EndpointSummary)
    (h : endpointSummary rs = some s) :
    successfulTimes rs ≠ [] ∧
    s.successful_requests = (successfulTimes rs).length ∧
    s.total_requests = rs.length ∧
    s.failed_requests = rs.length - (successfulTimes rs).length ∧
    s.success_rate =
      (if rs.isEmpty then 0
       else ((successfulTimes rs).length : ℚ) / (rs.length : ℚ)) ∧
    s.min_time = listMin (successfulTimes rs) ∧
    s.max_time = listMax (successfulTimes rs) ∧
    s.p95_time =
      (if 20 ≤ (successfulTimes rs).length then
        some ((sortAsc (successfulTimes rs)).getD
          ((successfulTimes rs).length * 95 / 100) 0)
       else none) ∧
    s.p99_time =
      (if 100 ≤ (successfulTimes rs).length then
        some ((sortAsc (successfulTimes rs)).getD
          ((successfulTimes rs).length * 99 / 100) 0)
       else none) := by
  by_cases he : successfulTimes rs = []
  · simp [endpointSummary, List.isEmpty_iff, he] at h
  · have hb : (successfulTimes rs).isEmpty = false := by
      simp [List.isEmpty_iff, he]
    rw [endpointSummary] at h
    simp only [hb, Bool.false_eq_true, if_false, Option.some.injEq] at h
    subst h
    exact ⟨he, rfl, rfl, rfl, rfl, rfl, rfl, rfl, rfl⟩

theorem mem_calculate_summary (rr : List (String × List RequestResult))
    (e : String) (s : EndpointSummary)
    (h : (e, s) ∈ calculate_summary rr) :
    ∃ rs, (e, rs) ∈ rr ∧ endpointSummary rs = some s := by
  simp only [calculate_summary, List.mem_filterMap, Option.map_eq_some',
    Prod.mk.injEq] at h
  obtain ⟨⟨e1, rs⟩, hin, s1, hs, he1, hs1⟩ := h
  subst he1; subst hs1
  exact ⟨rs, hin, hs⟩

theorem calculate_summary_keys (rr : List (String × List RequestResult)) :
    (calculate_summary rr).map Prod.fst =
      (rr.filter (fun p => p.2.any (fun r => r.success))).map Prod.fst := by
  induction rr with
  | nil => rfl
  | cons p ps ih =>
    simp only [calculate_summary] at ih ⊢
    rcases hs : endpointSummary p.2 with _ | s
    · have hall : ∀ r ∈ p.2, r.success = false :=
        (endpointSummary_eq_none_iff p.2).mp hs
      have hany : p.2.any (fun r => r.success) = false := by
        rw [List.any_eq_false]
        intro r hr
        simp [hall r hr]
      simp [List.filterMap_cons, List.filter_cons, hs, hany, ih]
    · have hne : ¬ ∀ r ∈ p.2, r.success = false := by
        intro hall
        rw [← endpointSummary_eq_none_iff] at hall
        simp [hall] at hs
      have hany : p.2.any (fun r => r.success) = true := by
        rw [List.any_eq_true]
        by_contra hno
        push_neg at hno
        exact hne fun r hr => by
          have hx := hno r hr
          simpa using hx
      simp [List.filterMap_cons, List.filter_cons, hs, hany, ih]

theorem foldl_min_le_init (l : List ℚ) (a : ℚ) : l.foldl min a ≤ a := by
  induction l generalizing a with
  | nil => exact le_refl a
  | cons x xs ih => exact le_trans (ih (min a x)) (min_le_left a x)

theorem foldl_min_le_mem (l : List ℚ) (a x : ℚ) (h : x ∈ l) :
    l.foldl min a ≤ x := by
  induction l generalizing a with
  | nil => cases h
  | cons y ys ih =>
    rcases List.mem_cons.mp h with rfl | hy
    · exact le_trans (foldl_min_le_init ys (min a x)) (min_le_right a x)
    · exact ih (min a y) hy

theorem listMin_le (l : List ℚ) (x : ℚ) (h : x ∈ l) : listMin l ≤ x := by
  cases l with
  | nil => cases h
  | cons y ys =>
    rcases List.mem_cons.mp h with rfl | hy
    · exact foldl_min_le_init ys x
    · exact foldl_min_le_mem ys y x hy

theorem init_le_foldl_max (l : List ℚ) (a : ℚ) : a ≤ l.foldl max a := by
  induction l generalizing a with
  | nil => exact le_refl a
  | cons x xs ih => exact le_trans (le_max_left a x) (ih (max a x))

theorem mem_le_foldl_max (l : List ℚ) (a x : ℚ) (h : x ∈ l) :
    x ≤ l.foldl max a := by
  induction l generalizing a with
  | nil => cases h
  | cons y ys ih =>
    rcases List.mem_cons.mp h with rfl | hy
    · exact le_trans (le_max_right a x) (init_le_foldl_max ys (max a x))
    · exact ih (max a y) hy

theorem le_listMax (l : List ℚ) (x : ℚ) (h : x ∈ l) : x ≤ listMax l := by
  cases l with
  | nil => cases h
  | cons y ys =>
    rcases List.mem_cons.mp h with rfl | hy
    · exact init_le_foldl_max ys x
    · exact mem_le_foldl_max ys y x hy

theorem sortAsc_length (l : List ℚ) : (sortAsc l).length = l.length :=
  List.length_insertionSort _ l

theorem sortAsc_mem (l : List ℚ) (x : ℚ) : x ∈ sortAsc l ↔ x ∈ l :=
  List.mem_insertionSort _

theorem getD_mem_of_lt (l : List ℚ) (i : Nat) (h : i < l.length) :
    l.getD i 0 ∈ l := by
  rw [List.getD_eq_getElem l 0 h]
  exact List.getElem_mem h

theorem pct_index_lt (n c : Nat) (hn : 1 ≤ n) (hc : c < 100) :
    n * c / 100 < n := by
  rw [Nat.div_lt_iff_lt_mul (by norm_num)]
  exact mul_lt_mul_of_pos_left hc hn

/-! ### Claim theorems about the aggregator -/

/-- C1.  Whenever calculate_summary produces an entry: if the number n of
successful outcomes is at least 20, p95_time is the element at index
floor(n * 0.95) of the ascending-sorted successful elapsed times (the index
being in bounds), and any such value lies within the interval
[min_time, max_time]; when n < 20 the p95_time is absent.  Likewise p99_time
is the element at index floor(n * 0.99) when n >= 100 and absent when
n < 100. -/
theorem percentile_c1 (rs : List RequestResult) (s : EndpointSummary)
    (h : endpointSummary rs = some s) :
    (20 ≤ (successfulTimes rs).length →
      s.p95_time = some ((sortAsc (successfulTimes rs)).getD
        ((successfulTimes rs).length * 95 / 100) 0) ∧
      (successfulTimes rs).length * 95 / 100 <
        (sortAsc (successfulTimes rs)).length) ∧
    ((successfulTimes rs).length < 20 → s.p95_time = none) ∧
    (∀ v, s.p95_time = some v → s.min_time ≤ v ∧ v ≤ s.max_time) ∧
    (100 ≤ (successfulTimes rs).length →
      s.p99_time = some ((sortAsc (successfulTimes rs)).getD
        ((successfulTimes rs).length * 99 / 100) 0) ∧
      (successfulTimes rs).length * 99 / 100 <
        (sortAsc (successfulTimes rs)).length) ∧
    ((successfulTimes rs).length < 100 → s.p99_time = none) := by
  obtain ⟨hne, hsucc, htot, hfail, hrate, hmin, hmax, hp95, hp99⟩ :=
    endpointSummary_fields rs s h
  have hpos : 1 ≤ (successfulTimes rs).length := List.length_pos.mpr hne
  refine ⟨?_, ?_, ?_, ?_, ?_⟩
  · intro h20
    refine ⟨by rw [hp95, if_pos h20], ?_⟩
    rw [sortAsc_length]
    exact pct_index_lt _ 95 hpos (by norm_num)
  · intro h20
    rw [hp95, if_neg (by omega)]
  · intro v hv
    rw [hp95] at hv
    by_cases h20 : 20 ≤ (successfulTimes rs).length
    · rw [if_pos h20, Option.some.injEq] at hv
      subst hv
      have hidx : (successfulTimes rs).length * 95 / 100 <
          (sortAsc (successfulTimes rs)).length := by
        rw [sortAsc_length]
        exact pct_index_lt _ 95 hpos (by norm_num)
      have hmem : (sortAsc (successfulTimes rs)).getD
          ((successfulTimes rs).length * 95 / 100) 0 ∈ successfulTimes rs :=
        (sortAsc_mem _ _).mp (getD_mem_of_lt _ _ hidx)
      exact ⟨hmin ▸ listMin_le _ _ hmem, hmax ▸ le_listMax _ _ hmem⟩
    · rw [if_neg h20] at hv
      cases hv
  · intro h100
    refine ⟨by rw [hp99, if_pos h100], ?_⟩
    rw [sortAsc_length]
    exact pct_index_lt _ 99 hpos (by norm_num)
  · intro h100
    rw [hp99, if_neg (by omega)]

/-- A successful outcome used by concrete scenarios: status 200, given elapsed
seconds, 100 bytes. -/
def okOutcome (t : ℚ) : RequestResult :=
  { status_code := 200, elapsed_time := t, response_size := 100,
    timestamp := "t0", success := true }

/-- A failed outcome used by concrete scenarios: an HTTP 500 response. -/
def failOutcome : RequestResult :=
  { status_code := 500, elapsed_time := 1/100, response_size := 0,
    timestamp := "t0", success := false, error := some "server error" }

/-- Twenty successful outcomes of one second each. -/
def rs20 : List RequestResult := List.replicate 20 (okOutcome 1)

/-- The summary calculate_summary produces for rs20. -/
def s20 : EndpointSummary :=
  { min_time := 1, max_time := 1, mean_time := 1, median_time := 1,
    p95_time := some 1, p99_time := none, total_requests := 20,
    successful_requests := 20, failed_requests := 0, success_rate := 1,
    avg_response_size := 100 }

theorem foldl_min_replicate (m : Nat) (a : ℚ) :
    (List.replicate m a).foldl min a = a := by
  induction m with
  | zero => rfl
  | succ k ih => simpa [List.replicate_succ, min_self] using ih

theorem foldl_max_replicate (m : Nat) (a : ℚ) :
    (List.replicate m a).foldl max a = a := by
  induction m with
  | zero => rfl
  | succ k ih => simpa [List.replicate_succ, max_self] using ih

theorem listMin_replicate (n : Nat) (a : ℚ) (h : n ≠ 0) :
    listMin (List.replicate n a) = a := by
  cases n with
  | zero => exact absurd rfl h
  | succ m =>
    rw [List.replicate_succ]
    exact foldl_min_replicate m a

theorem listMax_replicate (n : Nat) (a : ℚ) (h : n ≠ 0) :
    listMax (List.replicate n a) = a := by
  cases n with
  | zero => exact absurd rfl h
  | succ m =>
    rw [List.replicate_succ]
    exact foldl_max_replicate m a

theorem sortAsc_replicate (n : Nat) (a : ℚ) :
    sortAsc (List.replicate n a) = List.replicate n a :=
  List.Sorted.insertionSort_eq
    (List.pairwise_replicate.mpr (Or.inr (le_refl a)))

theorem getD_replicate (n i : Nat) (a : ℚ) (h : i < n) :
    (List.replicate n a).getD i 0 = a := by
  rw [List.getD_eq_getElem _ 0 (by simpa using h)]
  exact List.getElem_replicate a _

theorem meanQ_replicate (n : Nat) (a : ℚ) (h : n ≠ 0) :
    meanQ (List.replicate n a) = a := by
  have hn : (n : ℚ) ≠ 0 := Nat.cast_ne_zero.mpr h
  rw [meanQ, List.sum_replicate, List.length_replicate, nsmul_eq_mul,
    mul_div_cancel_left₀ a hn]

theorem medianQ_replicate (n : Nat) (a : ℚ) (h : n ≠ 0) :
    medianQ (List.replicate n a) = a := by
  have hlt : n / 2 < n := Nat.div_lt_self (Nat.pos_of_ne_zero h) (by norm_num)
  rw [medianQ]
  simp only [sortAsc_replicate, List.length_replicate]
  by_cases hodd : n % 2 = 1
  · rw [if_pos hodd, getD_replicate n (n / 2) a hlt]
  · rw [if_neg hodd, getD_replicate n (n / 2) a hlt,
      getD_replicate n (n / 2 - 1) a (by omega)]
    ring

theorem successfulTimes_rs20 : successfulTimes rs20 = List.replicate 20 1 := by
  simp [successfulTimes, rs20, okOutcome, List.filter_replicate]

theorem endpointSummary_rs20 : endpointSummary rs20 = some s20 := by
  have hsz : (rs20.filter (fun r => r.success)).map
      (fun r => (r.response_size : ℚ)) = List.replicate 20 (100 : ℚ) := by
    simp [rs20, okOutcome, List.filter_replicate]
  have hre : rs20.isEmpty = false := by simp [rs20]
  have hlen : rs20.length = 20 := by simp [rs20]
  rw [endpointSummary]
  simp only [successfulTimes_rs20, hsz, hre, hlen, List.isEmpty_replicate,
    List.length_replicate, s20]
  norm_num [sortAsc_replicate, getD_replicate, meanQ_replicate,
    medianQ_replicate, listMin_replicate, listMax_replicate]

/-- Witness for C1 at a concrete input: twenty successful one-second outcomes
have a present p95_time equal to the nearest-rank element. -/
theorem percentile_c1_witness :
    endpointSummary rs20 = some s20 ∧
    s20.p95_time = some ((sortAsc (successfulTimes rs20)).getD
      ((successfulTimes rs20).length * 95 / 100) 0) :=
  ⟨endpointSummary_rs20,
    ((percentile_c1 rs20 s20 endpointSummary_rs20).1
      (by rw [successfulTimes_rs20, List.length_replicate])).1⟩

/-- Three endpoints, the third returning HTTP 500 on all ten iterations
(the scenario of C2). -/
def exampleThreeEndpoints : List (String × List RequestResult) :=
  [("ep_a", List.replicate 10 (okOutcome (1/10))),
   ("ep_b", List.replicate 10 (okOutcome (1/5))),
   ("ep_c", List.replicate 10 failOutcome)]

/-- C2.  An endpoint has an entry in the summary mapping produced by
calculate_summary exactly when its outcome list holds at least one successful
outcome (an endpoint whose lists are all failures, or empty, is omitted);
in the concrete three-endpoint scenario where ep_c returns 500 on all ten
iterations, exactly ep_a and ep_b appear. -/
theorem summary_presence_c2 :
    (∀ (rr : List (String × List RequestResult)) (e : String),
      e ∈ (calculate_summary rr).map Prod.fst ↔
        ∃ rs, (e, rs) ∈ rr ∧ ∃ r ∈ rs, r.success = true) ∧
    (calculate_summary exampleThreeEndpoints).map Prod.fst =
      ["ep_a", "ep_b"] := by
  constructor
  · intro rr e
    rw [calculate_summary_keys]
    simp only [List.mem_map, List.mem_filter, List.any_eq_true]
    constructor
    · rintro ⟨⟨e1, rs⟩, ⟨hin, r, hr, hs⟩, rfl⟩
      exact ⟨rs, hin, r, hr, hs⟩
    · rintro ⟨rs, hin, r, hr, hs⟩
      exact ⟨(e, rs), ⟨hin, r, hr, hs⟩, rfl⟩
  · rw [calculate_summary_keys]
    simp [exampleThreeEndpoints, List.filter_cons, okOutcome, failOutcome]

/-- C6.  Every endpoint entry of a computed summary satisfies
successful_requests + failed_requests = total_requests and
success_rate = successful_requests / total_requests (0 when
total_requests = 0). -/
theorem summary_counts_c6 (rr : List (String × List RequestResult))
    (e : String) (s : EndpointSummary) (h : (e, s) ∈ calculate_summary rr) :
    s.successful_requests + s.failed_requests = s.total_requests ∧
    s.success_rate =
      (if s.total_requests = 0 then 0
       else (s.successful_requests : ℚ) / (s.total_requests : ℚ)) := by
  obtain ⟨rs, hin, hsum⟩ := mem_calculate_summary rr e s h
  obtain ⟨hne, hsucc, htot, hfail, hrate, _, _, _, _⟩ :=
    endpointSummary_fields rs s hsum
  have hle := successfulTimes_length_le rs
  have hrs : rs ≠ [] := fun hnil => hne (by simp [successfulTimes, hnil])
  have hlen0 : rs.length ≠ 0 := by
    simpa [List.length_eq_zero] using hrs
  have hie : rs.isEmpty = false := by simp [List.isEmpty_iff, hrs]
  constructor
  · rw [hsucc, hfail, htot]
    exact Nat.add_sub_cancel' hle
  · rw [hrate, htot, hsucc, hie, if_neg hlen0]
    simp

/-- Witness for C6 at a concrete input: the single-endpoint summary of
twenty successful outcomes. -/
theorem summary_counts_c6_witness :
    ("ep", s20) ∈ calculate_summary [("ep", rs20)] ∧
    (s20.successful_requests + s20.failed_requests = s20.total_requests ∧
    s20.success_rate =
      (if s20.total_requests = 0 then 0
       else (s20.successful_requests : ℚ) / (s20.total_requests : ℚ))) :=
  ⟨by simp [calculate_summary, endpointSummary_rs20],
    summary_counts_c6 [("ep", rs20)] "ep" s20
      (by simp [calculate_summary, endpointSummary_rs20])⟩

/-- C9.  Every endpoint entry of a computed summary has at least one
successful and one total request, hence its success_rate lies in (0, 1];
the zero fallbacks of success_rate and avg_response_size are unreachable for
entries of the summary mapping. -/
theorem summary_bounds_c9 (rr : List (String × List RequestResult))
    (e : String) (s : EndpointSummary) (h : (e, s) ∈ calculate_summary rr) :
    1 ≤ s.successful_requests ∧ 1 ≤ s.total_requests ∧
    0 < s.success_rate ∧ s.success_rate ≤ 1 := by
  obtain ⟨rs, hin, hsum⟩ := mem_calculate_summary rr e s h
  obtain ⟨hne, hsucc, htot, hfail, hrate, _, _, _, _⟩ :=
    endpointSummary_fields rs s hsum
  have hpos : 0 < (successfulTimes rs).length := List.length_pos.mpr hne
  have hle := successfulTimes_length_le rs
  have hrs : rs ≠ [] := fun hnil => hne (by simp [successfulTimes, hnil])
  have hlpos : 0 < rs.length := List.length_pos.mpr hrs
  have hie : rs.isEmpty = false := by simp [List.isEmpty_iff, hrs]
  refine ⟨hsucc ▸ hpos, htot ▸ hlpos, ?_, ?_⟩
  · rw [hrate, hie]
    simp only [Bool.false_eq_true, if_false]
    exact div_pos (by exact_mod_cast hpos) (by exact_mod_cast hlpos)
  · rw [hrate, hie]
    simp only [Bool.false_eq_true, if_false]
    exact (div_le_one (by exact_mod_cast hlpos)).mpr (by exact_mod_cast hle)

/-- Witness for C9 at a concrete input: the single-endpoint summary of
twenty successful outcomes. -/
theorem summary_bounds_c9_witness :
    ("ep", s20) ∈ calculate_summary [("ep", rs20)] ∧
    (1 ≤ s20.successful_requests ∧ 1 ≤ s20.total_requests ∧
    0 < s20.success_rate ∧ s20.success_rate ≤ 1) :=
  ⟨by simp [calculate_summary, endpointSummary_rs20],
    summary_bounds_c9 [("ep", rs20)] "ep" s20
      (by simp [calculate_summary, endpointSummary_rs20])⟩

/-! ### Claim theorems about the request executor and the run entry point -/

/-- C3.  The request executor is total on transport failures: when the
underlying HTTP call raises, _make_request returns (never raises) a
RequestResult with status_code -1, success false, response_size 0, the
exception message as error, and the elapsed time measured up to the failure
point. -/
theorem make_request_exception_c3 :
    ∀ (include_response_data : Bool) (timestamp msg : String) (elapsed : ℚ),
      make_request include_response_data timestamp
        (HttpCallOutcome.exn msg elapsed) =
        { status_code := -1, elapsed_time := elapsed, response_size := 0,
          timestamp := timestamp, success := false, error := some msg,
          response_headers := [], response_data := none } :=
  fun _ _ _ _ => rfl

theorem seqIters_nil_reqs (exec : Nat → RequestResult) (s k : Nat)
    (m : List (String × List RequestResult)) :
    seqIters exec [] s k m = m := by
  induction k generalizing s with
  | zero => rfl
  | succ n ih => exact ih (s + List.length [])

theorem runConcurrent_nil_reqs (cfg : TestConfig) (exec : Nat → RequestResult)
    (completionOrder : List Nat) (h : cfg.requests = []) :
    runConcurrent cfg exec completionOrder = [] := by
  rw [runConcurrent, h]
  have htasks : ((List.range cfg.iterations).flatMap
      fun _ => ([] : List RequestConfig)) = [] := by simp
  rw [htasks]
  induction completionOrder with
  | nil => rfl
  | cons n ns ih => exact ih

/-- An empty test configuration: no RequestSpecs at all. -/
def cfgEmpty : TestConfig :=
  { name := "empty", base_url := "http://localhost:8000", requests := [],
    iterations := 5, concurrent := false, max_workers := 5,
    warm_up_iterations := 2, include_response_data := false,
    auth_token := none }

/-- Counterexample to C4 as stated: running APIPerformanceTester.run with an
empty RequestSpec list does not abort; it completes normally and produces a
TestResult whose request_results and summary are both empty. -/
theorem run_empty_c4_counterexample :
    run cfgEmpty (fun _ => failOutcome) [] "start" "end" 0 =
      { test_name := "empty", start_time := "start", end_time := "end",
        total_duration := 0, request_results := [], iterations := 5,
        concurrent := false, summary := [] } := rfl

/-- C4 amended.  APIPerformanceTester.run on a config with an empty
RequestSpec list completes without making any request and returns a
TestResult with empty request_results and empty summary; the fatal abort for
an empty endpoint selection happens earlier, in the test_api management
command, which exits before any test config is built. -/
theorem run_empty_requests_c4 (cfg : TestConfig) (exec : Nat → RequestResult)
    (completionOrder : List Nat) (st et : String) (d : ℚ)
    (h : cfg.requests = []) :
    (run cfg exec completionOrder st et d).request_results = [] ∧
    (run cfg exec completionOrder st et d).summary = [] ∧
    cliEndpointGuard cfg.requests =
      Except.error "No valid endpoints selected for testing" := by
  have hseq : runSequential cfg exec = [] := by
    rw [runSequential, h]
    exact seqIters_nil_reqs _ _ _ _
  have hcon := runConcurrent_nil_reqs cfg exec completionOrder h
  have hrr : (if cfg.concurrent then runConcurrent cfg exec completionOrder
      else runSequential cfg exec) = [] := by
    by_cases hc : cfg.concurrent <;> simp [hc, hseq, hcon]
  refine ⟨?_, ?_, ?_⟩
  · rw [run]
    simpa using hrr
  · rw [run]
    simp only []
    show calculate_summary _ = []
    rw [hrr]
    rfl
  · rw [h]
    rfl

/-- Witness for the amended C4 at a concrete input: the concrete empty
configuration. -/
theorem run_empty_requests_c4_witness :
    cfgEmpty.requests = [] ∧
    ((run cfgEmpty (fun _ => failOutcome) [] "start" "end" 0).request_results
      = [] ∧
    (run cfgEmpty (fun _ => failOutcome) [] "start" "end" 0).summary = [] ∧
    cliEndpointGuard cfgEmpty.requests =
      Except.error "No valid endpoints selected for testing") :=
  ⟨rfl,
    run_empty_requests_c4 cfgEmpty (fun _ => failOutcome) [] "start" "end" 0
      rfl⟩

/-! ### Facts about the sequential scheduler -/

theorem mem_dedupFirst (l : List String) (e : String) :
    e ∈ dedupFirst l ↔ e ∈ l := by
  induction l with
  | nil => simp [dedupFirst]
  | cons x xs ih =>
    by_cases hex : e = x
    · simp [dedupFirst, hex]
    · simp [dedupFirst, List.mem_cons, List.mem_filter, hex, ih]

theorem nodup_dedupFirst (l : List String) : (dedupFirst l).Nodup := by
  induction l with
  | nil => exact List.nodup_nil
  | cons x xs ih =>
    rw [dedupFirst, List.nodup_cons]
    refine ⟨?_, List.Nodup.filter _ ih⟩
    intro hx
    have := (List.mem_filter.mp hx).2
    simp at this

theorem dedupFirst_eq_self (l : List String) (h : l.Nodup) :
    dedupFirst l = l := by
  induction l with
  | nil => rfl
  | cons x xs ih =>
    rw [List.nodup_cons] at h
    rw [dedupFirst, ih h.2, List.filter_eq_self.mpr]
    intro a ha
    have hax : a ≠ x := fun hax => h.1 (hax ▸ ha)
    simpa using hax

theorem lookupKey_appendAt (m : List (String × List RequestResult))
    (k e : String) (v : RequestResult) :
    lookupKey e (appendAt m k v) =
      if e = k then (lookupKey e m).map (fun l => l ++ [v])
      else lookupKey e m := by
  induction m with
  | nil => by_cases h : e = k <;> simp [appendAt, lookupKey, h]
  | cons p ps ih =>
    simp only [appendAt, List.map_cons] at ih ⊢
    by_cases h1 : p.1 = k
    · by_cases h2 : p.1 = e
      · have hek : e = k := h2 ▸ h1
        simp [lookupKey, h1, h2, hek]
      · have hek : e ≠ k := fun he => h2 (h1.trans he.symm)
        have hke : k ≠ e := fun he => hek he.symm
        simp [lookupKey, h1, h2, hek, hke, ih]
    · by_cases h2 : p.1 = e
      · have hek : e ≠ k := fun he => h1 (h2.trans he)
        simp [lookupKey, h1, h2, hek]
      · simp [lookupKey, h1, h2, ih]

theorem keys_appendAt (m : List (String × List RequestResult))
    (k : String) (v : RequestResult) :
    (appendAt m k v).map Prod.fst = m.map Prod.fst := by
  induction m with
  | nil => rfl
  | cons p ps ih =>
    simp only [appendAt, List.map_cons] at ih ⊢
    by_cases h : p.1 = k <;> simp [h, ih]

theorem keys_seqRound (exec : Nat → RequestResult) :
    ∀ (reqs : List RequestConfig) (s : Nat)
      (m : List (String × List RequestResult)),
      (seqRound exec s reqs m).map Prod.fst = m.map Prod.fst := by
  intro reqs
  induction reqs with
  | nil => intro s m; rfl
  | cons r rs ih =>
    intro s m
    rw [seqRound, ih]
    exact keys_appendAt m r.endpoint (exec s)

theorem keys_seqIters (exec : Nat → RequestResult)
    (reqs : List RequestConfig) :
    ∀ (k s : Nat) (m : List (String × List RequestResult)),
      (seqIters exec reqs s k m).map Prod.fst = m.map Prod.fst := by
  intro k
  induction k with
  | zero => intro s m; rfl
  | succ n ih =>
    intro s m
    rw [seqIters, ih, keys_seqRound]

theorem lookupKey_seqRound_not_mem (exec : Nat → RequestResult) (e : String) :
    ∀ (reqs : List RequestConfig) (s : Nat)
      (m : List (String × List RequestResult)),
      e ∉ reqs.map (fun r => r.endpoint) →
      lookupKey e (seqRound exec s reqs m) = lookupKey e m := by
  intro reqs
  induction reqs with
  | nil => intro s m _; rfl
  | cons r rs ih =>
    intro s m hmem
    rw [seqRound]
    have h1 : e ∉ rs.map (fun r => r.endpoint) :=
      fun hx => hmem (List.mem_cons_of_mem _ hx)
    have h2 : e ≠ r.endpoint := fun hx => hmem (by simp [hx])
    rw [ih _ _ h1, lookupKey_appendAt, if_neg h2]

theorem lookupKey_seqRound_get (exec : Nat → RequestResult) :
    ∀ (reqs : List RequestConfig) (j : Nat) (hj : j < reqs.length) (s : Nat)
      (m : List (String × List RequestResult)),
      (reqs.map (fun r => r.endpoint)).Nodup →
      lookupKey ((reqs.get ⟨j, hj⟩).endpoint) (seqRound exec s reqs m) =
        (lookupKey ((reqs.get ⟨j, hj⟩).endpoint) m).map
          (fun l => l ++ [exec (s + j)]) := by
  intro reqs
  induction reqs with
  | nil => intro j hj; exact absurd hj (by simp)
  | cons r rs ih =>
    intro j hj s m hnd
    rw [List.map_cons, List.nodup_cons] at hnd
    cases j with
    | zero =>
      rw [seqRound]
      show lookupKey r.endpoint _ =
        (lookupKey r.endpoint m).map (fun l => l ++ [exec (s + 0)])
      rw [lookupKey_seqRound_not_mem exec _ rs _ _ hnd.1, lookupKey_appendAt,
        if_pos rfl, Nat.add_zero]
    | succ i =>
      rw [seqRound]
      have hi : i < rs.length := by simpa using hj
      have hne : (rs.get ⟨i, hi⟩).endpoint ≠ r.endpoint := by
        intro hx
        exact hnd.1
          (hx ▸ List.mem_map.mpr ⟨rs.get ⟨i, hi⟩, List.get_mem rs i hi, rfl⟩)
      show lookupKey ((rs.get ⟨i, hi⟩).endpoint)
          (seqRound exec (s + 1) rs (appendAt m r.endpoint (exec s))) = _
      rw [ih i hi (s + 1) _ hnd.2, lookupKey_appendAt, if_neg hne,
        show s + 1 + i = s + (i + 1) from by omega]
      rfl

theorem lookupKey_seqIters_get (exec : Nat → RequestResult)
    (reqs : List RequestConfig) (j : Nat) (hj : j < reqs.length)
    (hnd : (reqs.map (fun r => r.endpoint)).Nodup) :
    ∀ (k s : Nat) (m : List (String × List RequestResult)),
      lookupKey ((reqs.get ⟨j, hj⟩).endpoint) (seqIters exec reqs s k m) =
        (lookupKey ((reqs.get ⟨j, hj⟩).endpoint) m).map
          (fun l => l ++ (List.range k).map
            (fun i => exec (s + i * reqs.length + j))) := by
  intro k
  induction k with
  | zero =>
    intro s m
    simp [seqIters]
  | succ n ih =>
    intro s m
    rw [seqIters, ih (s + reqs.length) (seqRound exec s reqs m),
      lookupKey_seqRound_get exec reqs j hj s m hnd, Option.map_map]
    congr 1
    funext l
    simp only [Function.comp_apply, List.append_assoc]
    congr 1
    rw [List.range_succ_eq_map, List.map_cons, List.map_map]
    simp only [Nat.zero_mul, Nat.add_zero, List.singleton_append]
    congr 1
    apply List.map_congr_left
    intro i _
    simp only [Function.comp_apply]
    congr 1
    simp only [Nat.succ_eq_add_one]
    ring

theorem lookupKey_map_nil (e : String) :
    ∀ (ks : List String), e ∈ ks →
      lookupKey e (ks.map (fun k => (k, ([] : List RequestResult)))) =
        some [] := by
  intro ks
  induction ks with
  | nil => intro h; cases h
  | cons x xs ih =>
    intro h
    by_cases hx : x = e
    · simp [lookupKey, hx]
    · rcases List.mem_cons.mp h with rfl | hmem
      · exact absurd rfl hx
      · simp [lookupKey, hx, ih hmem]

theorem lookupKey_initResults (reqs : List RequestConfig) (e : String)
    (he : e ∈ reqs.map (fun r => r.endpoint)) :
    lookupKey e (initResults reqs) = some [] :=
  lookupKey_map_nil e _ ((mem_dedupFirst _ e).mpr he)

theorem keys_initResults (reqs : List RequestConfig) :
    (initResults reqs).map Prod.fst =
      dedupFirst (reqs.map (fun r => r.endpoint)) := by
  rw [initResults, List.map_map]
  exact List.map_id _

/-! ### Claim theorems about the sequential scheduler -/

/-- C5.  In sequential mode with pairwise-distinct endpoints, the keys of the
produced mapping are exactly the spec endpoints in order, and the outcome
list of the j-th spec's endpoint is precisely the list of the outcomes of the
calls with index warm_up_iterations * len + k * len + j for k ranging over
the measured iterations: length exactly iterations, iteration-major order,
spec order within each iteration, and every recorded call index at least
warm_up_iterations * len, so the warm-up outcomes (indices below that) appear
in no list. -/
theorem sequential_order_c5 (cfg : TestConfig) (exec : Nat → RequestResult)
    (hnd : (cfg.requests.map (fun r => r.endpoint)).Nodup)
    (j : Nat) (hj : j < cfg.requests.length) :
    (runSequential cfg exec).map Prod.fst =
      cfg.requests.map (fun r => r.endpoint) ∧
    lookupKey ((cfg.requests.get ⟨j, hj⟩).endpoint) (runSequential cfg exec) =
      some ((List.range cfg.iterations).map (fun k =>
        exec (cfg.warm_up_iterations * cfg.requests.length +
          k * cfg.requests.length + j))) := by
  constructor
  · rw [runSequential, keys_seqIters, keys_initResults,
      dedupFirst_eq_self _ hnd]
  · rw [runSequential, lookupKey_seqIters_get exec cfg.requests j hj hnd,
      lookupKey_initResults cfg.requests _
        (List.mem_map.mpr ⟨cfg.requests.get ⟨j, hj⟩,
          List.get_mem cfg.requests j hj, rfl⟩)]
    simp

/-- First request spec of the concrete scheduler scenarios. -/
def reqA : RequestConfig := { method := "GET", endpoint := "/a" }

/-- Second request spec, distinct endpoint. -/
def reqB : RequestConfig := { method := "GET", endpoint := "/b" }

/-- A POST spec sharing the endpoint of reqA. -/
def reqA2 : RequestConfig := { method := "POST", endpoint := "/a" }

/-- Sequential config with two distinct endpoints, two iterations and one
warm-up round. -/
def cfgSeq : TestConfig :=
  { name := "seq", base_url := "http://localhost:8000",
    requests := [reqA, reqB], iterations := 2, concurrent := false,
    max_workers := 5, warm_up_iterations := 1,
    include_response_data := false, auth_token := none }

/-- Sequential config with two specs sharing one endpoint and three
iterations. -/
def cfgDup : TestConfig :=
  { name := "dup", base_url := "http://localhost:8000",
    requests := [reqA, reqA2], iterations := 3, concurrent := false,
    max_workers := 5, warm_up_iterations := 0,
    include_response_data := false, auth_token := none }

/-- Oracle that tags each outcome with its call index. -/
def execTrace : Nat → RequestResult := fun n => okOutcome (n : ℚ)

/-- Witness for C5 at a concrete input: two distinct endpoints, two
iterations, one warm-up round. -/
theorem sequential_order_c5_witness :
    (cfgSeq.requests.map (fun r => r.endpoint)).Nodup ∧
    0 < cfgSeq.requests.length ∧
    ((runSequential cfgSeq execTrace).map Prod.fst =
      cfgSeq.requests.map (fun r => r.endpoint) ∧
    lookupKey ((cfgSeq.requests.get ⟨0, by decide⟩).endpoint)
      (runSequential cfgSeq execTrace) =
      some ((List.range cfgSeq.iterations).map (fun k =>
        execTrace (cfgSeq.warm_up_iterations * cfgSeq.requests.length +
          k * cfgSeq.requests.length + 0)))) :=
  ⟨by decide, by decide,
    sequential_order_c5 cfgSeq execTrace (by decide) 0 (by decide)⟩

theorem lookupKey_seqRound_len (exec : Nat → RequestResult) (e : String) :
    ∀ (reqs : List RequestConfig) (s : Nat)
      (m : List (String × List RequestResult)) (l : List RequestResult),
      lookupKey e m = some l →
      ∃ l2, lookupKey e (seqRound exec s reqs m) = some l2 ∧
        l2.length = l.length +
          reqs.countP (fun r => decide (r.endpoint = e)) := by
  intro reqs
  induction reqs with
  | nil => intro s m l h; exact ⟨l, h, by simp⟩
  | cons r rs ih =>
    intro s m l h
    rw [seqRound]
    by_cases hre : r.endpoint = e
    · have hl : lookupKey e (appendAt m r.endpoint (exec s)) =
          some (l ++ [exec s]) := by
        rw [lookupKey_appendAt, if_pos hre.symm, h]
        rfl
      obtain ⟨l2, hl2, hlen⟩ := ih (s + 1) _ _ hl
      refine ⟨l2, hl2, ?_⟩
      rw [hlen, List.countP_cons]
      simp [hre]
      omega
    · have hl : lookupKey e (appendAt m r.endpoint (exec s)) = some l := by
        rw [lookupKey_appendAt, if_neg (fun hx => hre hx.symm), h]
      obtain ⟨l2, hl2, hlen⟩ := ih (s + 1) _ _ hl
      refine ⟨l2, hl2, ?_⟩
      rw [hlen, List.countP_cons]
      simp [hre]

theorem lookupKey_seqIters_len (exec : Nat → RequestResult)
    (reqs : List RequestConfig) (e : String) :
    ∀ (k s : Nat) (m : List (String × List RequestResult))
      (l : List RequestResult),
      lookupKey e m = some l →
      ∃ l2, lookupKey e (seqIters exec reqs s k m) = some l2 ∧
        l2.length = l.length +
          k * reqs.countP (fun r => decide (r.endpoint = e)) := by
  intro k
  induction k with
  | zero => intro s m l h; exact ⟨l, h, by simp⟩
  | succ n ih =>
    intro s m l h
    rw [seqIters]
    obtain ⟨l1, hl1, hlen1⟩ := lookupKey_seqRound_len exec e reqs s m l h
    obtain ⟨l2, hl2, hlen2⟩ := ih (s + reqs.length) _ _ hl1
    refine ⟨l2, hl2, ?_⟩
    rw [hlen2, hlen1]
    ring

/-- C10.  Outcome lists are keyed solely by the endpoint string: for every
endpoint appearing among the specs, the sequential result map has exactly one
entry for it, its list length is (number of specs with that endpoint) times
iterations, and the summary has at most one entry for it. -/
theorem shared_endpoint_c10 (cfg : TestConfig) (exec : Nat → RequestResult)
    (e : String) (he : e ∈ cfg.requests.map (fun r => r.endpoint)) :
    (∃ l, lookupKey e (runSequential cfg exec) = some l ∧
      l.length = cfg.requests.countP (fun r => decide (r.endpoint = e)) *
        cfg.iterations) ∧
    ((runSequential cfg exec).map Prod.fst).count e = 1 ∧
    ((calculate_summary (runSequential cfg exec)).map Prod.fst).count e
      ≤ 1 := by
  have hkeys : (runSequential cfg exec).map Prod.fst =
      dedupFirst (cfg.requests.map (fun r => r.endpoint)) := by
    rw [runSequential, keys_seqIters, keys_initResults]
  have hone : (dedupFirst (cfg.requests.map (fun r => r.endpoint))).count e
      = 1 :=
    List.count_eq_one_of_mem (nodup_dedupFirst _)
      ((mem_dedupFirst _ e).mpr he)
  refine ⟨?_, ?_, ?_⟩
  · obtain ⟨l, hl, hlen⟩ := lookupKey_seqIters_len exec cfg.requests e
      cfg.iterations _ _ []
      (lookupKey_initResults cfg.requests e he)
    exact ⟨l, hl, by rw [hlen]; simp [Nat.mul_comm]⟩
  · rw [hkeys]
    exact hone
  · have hsub : List.Sublist
        ((calculate_summary (runSequential cfg exec)).map Prod.fst)
        ((runSequential cfg exec).map Prod.fst) := by
      rw [calculate_summary_keys]
      exact (List.filter_sublist _).map Prod.fst
    have := hsub.count_le e
    rw [hkeys, hone] at this
    exact this

/-- Witness for C10 at a concrete input: GET and POST specs sharing endpoint
"/a", three iterations. -/
theorem shared_endpoint_c10_witness :
    "/a" ∈ cfgDup.requests.map (fun r => r.endpoint) ∧
    ((∃ l, lookupKey "/a" (runSequential cfgDup execTrace) = some l ∧
      l.length = cfgDup.requests.countP
        (fun r => decide (r.endpoint = "/a")) * cfgDup.iterations) ∧
    ((runSequential cfgDup execTrace).map Prod.fst).count "/a" = 1 ∧
    ((calculate_summary (runSequential cfgDup execTrace)).map
      Prod.fst).count "/a" ≤ 1) :=
  ⟨by decide, shared_endpoint_c10 cfgDup execTrace "/a" (by decide)⟩

/-! ### Facts about the comparison layer -/

theorem lookupKey_isSome_iff {α : Type} (e : String) (l : List (String × α)) :
    (lookupKey e l).isSome ↔ e ∈ l.map Prod.fst := by
  induction l with
  | nil => simp [lookupKey]
  | cons p ps ih =>
    by_cases h : p.1 = e
    · simp [lookupKey, h]
    · simp [lookupKey, h, ih, Ne.symm h]

theorem mem_commonEndpoints (summary1 summary2 : List (String × SummaryStats))
    (e : String) :
    e ∈ commonEndpoints summary1 summary2 ↔
      e ∈ summary1.map Prod.fst ∧ e ∈ summary2.map Prod.fst := by
  rw [commonEndpoints, List.mem_filter, lookupKey_isSome_iff]

theorem filterMap_keys_of_forall_isSome
    (summary1 summary2 : List (String × SummaryStats)) :
    ∀ (l : List String),
      (∀ e ∈ l, (lookupKey e summary1).isSome ∧
        (lookupKey e summary2).isSome) →
      (l.filterMap (fun e =>
        match lookupKey e summary1, lookupKey e summary2 with
        | some st1, some st2 =>
          some (e, metricsList.map
            (fun m => makeRow m.2.1 m.2.2 (metricValue m.2.1 st1)
              (metricValue m.2.1 st2)))
        | _, _ => none)).map Prod.fst = l := by
  intro l
  induction l with
  | nil => intro _; rfl
  | cons e es ih =>
    intro h
    obtain ⟨h1, h2⟩ := h e (List.mem_cons_self e es)
    obtain ⟨st1, hst1⟩ := Option.isSome_iff_exists.mp h1
    obtain ⟨st2, hst2⟩ := Option.isSome_iff_exists.mp h2
    rw [List.filterMap_cons, hst1, hst2]
    simp only [List.map_cons]
    rw [ih (fun x hx => h x (List.mem_cons_of_mem e hx))]

theorem detailedStatsTable_keys
    (summary1 summary2 : List (String × SummaryStats)) :
    (detailedStatsTable summary1 summary2).map Prod.fst =
      commonEndpoints summary1 summary2 := by
  rw [detailedStatsTable]
  apply filterMap_keys_of_forall_isSome
  intro e he
  rw [mem_commonEndpoints] at he
  exact ⟨(lookupKey_isSome_iff e summary1).mpr he.1,
    (lookupKey_isSome_iff e summary2).mpr he.2⟩

/-! ### Claim theorems about the comparison layer -/

/-- C7.  The comparison table is computed over exactly the intersection of
the endpoints of the two runs, and for every compared metric with scaled
values val1 and val2 the raw diff is val2 - val1 and the percentage change is
(val2 - val1) / val1 * 100 when val1 is nonzero and 0 when val1 = 0 (the
scaling cancels, so this equals (v2 - v1) / v1 * 100 on the raw values); in
the improvement computation, run-1 mean 200ms against run-2 mean 100ms gives
improvement +50 percent and absolute diff +100ms. -/
theorem compare_table_c7 :
    (∀ (summary1 summary2 : List (String × SummaryStats)) (e : String),
      e ∈ commonEndpoints summary1 summary2 ↔
        e ∈ summary1.map Prod.fst ∧ e ∈ summary2.map Prod.fst) ∧
    (∀ (summary1 summary2 : List (String × SummaryStats)),
      (detailedStatsTable summary1 summary2).map Prod.fst =
        commonEndpoints summary1 summary2) ∧
    (∀ (key : String) (mult v1 v2 : ℚ),
      (makeRow key mult v1 v2).diff = v2 * mult - v1 * mult) ∧
    (∀ (key : String) (mult v1 v2 : ℚ), v1 * mult ≠ 0 →
      (makeRow key mult v1 v2).pct_change =
        (v2 * mult - v1 * mult) / (v1 * mult) * 100) ∧
    (∀ (key : String) (mult v1 v2 : ℚ), v1 * mult = 0 →
      (makeRow key mult v1 v2).pct_change = 0) ∧
    (∀ (key : String) (mult v1 v2 : ℚ), v1 ≠ 0 → mult ≠ 0 →
      (makeRow key mult v1 v2).pct_change = (v2 - v1) / v1 * 100) ∧
    improvementFor (1/5) (1/10) = (50, 100) := by
  refine ⟨mem_commonEndpoints, detailedStatsTable_keys, ?_, ?_, ?_, ?_, ?_⟩
  · intro key mult v1 v2
    rfl
  · intro key mult v1 v2 h
    simp only [makeRow]
    rw [if_pos h]
  · intro key mult v1 v2 h
    simp only [makeRow]
    rw [if_neg (not_not_intro h)]
  · intro key mult v1 v2 h1 h2
    simp only [makeRow]
    rw [if_pos (mul_ne_zero h1 h2)]
    field_simp
    ring
  · norm_num [improvementFor, Prod.ext_iff]

/-- Witness for C7 at a concrete input: the mean-time row for raw values
0.2s and 0.1s scaled to milliseconds. -/
theorem compare_table_c7_witness :
    ((1/5 : ℚ) * 1000 ≠ 0) ∧
    (makeRow "mean_time" 1000 (1/5) (1/10)).pct_change =
      ((1/10 : ℚ) * 1000 - (1/5) * 1000) / ((1/5) * 1000) * 100 :=
  ⟨by norm_num,
    compare_table_c7.2.2.2.1 "mean_time" 1000 (1/5) (1/10) (by norm_num)⟩

/-- C8.  Comparison is symmetric in magnitude: swapping the two runs negates
the raw diff, and when both scaled values are nonzero the two percentage
changes are reciprocally related:
(1 + pct(A,B)/100) * (1 + pct(B,A)/100) = 1. -/
theorem compare_symmetry_c8 :
    ∀ (key : String) (mult v1 v2 : ℚ),
      (makeRow key mult v2 v1).diff = -(makeRow key mult v1 v2).diff ∧
      (v1 * mult ≠ 0 → v2 * mult ≠ 0 →
        (1 + (makeRow key mult v1 v2).pct_change / 100) *
          (1 + (makeRow key mult v2 v1).pct_change / 100) = 1) := by
  intro key mult v1 v2
  constructor
  · simp only [makeRow]
    ring
  · intro h1 h2
    simp only [makeRow]
    rw [if_pos h1, if_pos h2]
    field_simp
    ring

/-- Witness for C8 at a concrete input: mean times 0.2s and 0.1s scaled to
milliseconds; the two percentage changes -50 and +100 compose to the
identity. -/
theorem compare_symmetry_c8_witness :
    ((1/5 : ℚ) * 1000 ≠ 0) ∧ ((1/10 : ℚ) * 1000 ≠ 0) ∧
    (1 + (makeRow "mean_time" 1000 (1/5 : ℚ) (1/10)).pct_change / 100) *
      (1 + (makeRow "mean_time" 1000 (1/10 : ℚ) (1/5)).pct_change / 100)
      = 1 :=
  ⟨by norm_num, by norm_num,
    (compare_symmetry_c8 "mean_time" 1000 (1/5) (1/10)).2 (by norm_num)
      (by norm_num)⟩

end ApiPerf
